import Mathlib

/-!
# BoxLabeler — verification of the core annotation logic

Shallow embedding of the core of `src/boxlabeler/annotator.py` (class
`BoxLabeler`): the viewport transform, the box annotation store, the class
registry, and the label persistence / round-trip logic.

Modelling conventions:
* Python floats are modelled as exact rationals (`ℚ`); fixed 6-decimal
  formatting (`f"{v:.6f}"`) is modelled as rounding to the nearest multiple
  of `10⁻⁶`.
* Files are modelled as their list of lines; the filesystem (existence of
  label files) is an oracle `String → Bool` on file stems, and
  `os.path.splitext(...)[0]` is an abstract function `stemOf : String → String`
  (both are external library / OS calls in the source).
* The Python dict `class_names` is modelled as an association list sorted by
  key with distinct keys; Python iterates `sorted(keys)`, which is this
  list's order.
-/

namespace BoxLabeler

/-- A committed bounding box `(x1, y1, x2, y2, class_id)` in image-pixel
space, as stored in `self.boxes`. -/
structure Box where
  x1 : ℚ
  y1 : ℚ
  x2 : ℚ
  y2 : ℚ
  cls : ℤ
deriving DecidableEq, Repr

/-! ## Viewport transform (`scale`, `offset_x`, `offset_y`, `zoom_index`) -/

/-- View-transform state of the session
(`self.scale`, `self.offset_x`, `self.offset_y`, `self.zoom_index`). -/
structure TState where
  scale : ℚ
  offset_x : ℚ
  offset_y : ℚ
  zoom_index : ℕ
deriving DecidableEq, Repr

/-- The fixed zoom-level table `self.zoom_levels`
(`[0.05, 0.075, 0.1, 0.15, 0.2, 0.25, 0.33, 0.5, 0.67, 0.75, 0.85, 1.0,
1.25, 1.5, 2.0, 3.0, 4.0, 5.0, 7.0, 10.0]`), as exact rationals. -/
def zoom_levels : List ℚ :=
  [5/100, 75/1000, 1/10, 15/100, 2/10, 25/100, 33/100, 5/10, 67/100,
   75/100, 85/100, 1, 125/100, 15/10, 2, 3, 4, 5, 7, 10]

/-- The transform state set by `BoxLabeler.__init__`:
`scale = 1.0`, `offset_x = offset_y = 0.0`, `zoom_index = 0`. -/
def initState : TState :=
  { scale := 1, offset_x := 0, offset_y := 0, zoom_index := 0 }

/-- `canvas_to_image`: convert canvas pixel coords to image pixel coords,
`ix = (cx - offset_x) / scale`, `iy = (cy - offset_y) / scale`. -/
def canvas_to_image (s : TState) (cx cy : ℚ) : ℚ × ℚ :=
  ((cx - s.offset_x) / s.scale, (cy - s.offset_y) / s.scale)

/-- `image_to_canvas`: convert image pixel coords to canvas pixel coords,
`cx = ix * scale + offset_x`, `cy = iy * scale + offset_y`. -/
def image_to_canvas (s : TState) (ix iy : ℚ) : ℚ × ℚ :=
  (ix * s.scale + s.offset_x, iy * s.scale + s.offset_y)

/-- The index computation of `_zoom_step`:
`new_index = max(0, min(zoom_index + direction, len(zoom_levels) - 1))`. -/
def zoomClampIndex (zoom_index : ℕ) (direction : ℤ) : ℕ :=
  (max 0 (min ((zoom_index : ℤ) + direction) ((zoom_levels.length : ℤ) - 1))).toNat

/-- `_zoom_step(cx, cy, direction)`: step one zoom level up or down, keeping
the cursor point fixed.  Computes the image point under the cursor from the
*pre-step* transform, clamps the new index, returns the state unchanged if
already at the boundary, and otherwise sets the new scale from the table and
solves `offset' = cursor - image_point * scale'`. -/
def _zoom_step (s : TState) (cx cy : ℚ) (direction : ℤ) : TState :=
  let p := canvas_to_image s cx cy
  let new_index := zoomClampIndex s.zoom_index direction
  if new_index = s.zoom_index then s
  else
    let scale := zoom_levels.getD new_index 0
    { scale := scale
      offset_x := cx - p.1 * scale
      offset_y := cy - p.2 * scale
      zoom_index := new_index }

/-- `_nearest_zoom_index(target_scale)`: linear scan for the index of the
zoom level with minimum absolute difference from `target_scale`; strict
`<` comparison means the first (lowest-index) minimum wins. -/
def _nearest_zoom_index (target_scale : ℚ) : ℕ :=
  (zoom_levels.enum.foldl
    (fun best p => if |p.2 - target_scale| < best.2 then (p.1, |p.2 - target_scale|) else best)
    (0, |zoom_levels.getD 0 0 - target_scale|)).1

/-- `_fit_to_window`: set scale and offset so the image fits the canvas.
Canvas dimensions below 10 fall back to 1200×750; `fit_scale =
min(cw/img_w, ch/img_h, 1.0)`; the scale snaps to the nearest zoom level and
the image is centered. -/
def _fit_to_window (cw ch img_w img_h : ℚ) : TState :=
  let cw := if cw < 10 then 1200 else cw
  let ch := if ch < 10 then 750 else ch
  let sx := cw / img_w
  let sy := ch / img_h
  let fit_scale := min (min sx sy) 1
  let idx := _nearest_zoom_index fit_scale
  let scale := zoom_levels.getD idx 0
  { scale := scale
    offset_x := (cw - img_w * scale) / 2
    offset_y := (ch - img_h * scale) / 2
    zoom_index := idx }

/-- The transform invariant claimed by the spec:
`scale == zoom_levels[zoom_index]`. -/
def scaleInv (s : TState) : Prop :=
  s.scale = zoom_levels.getD s.zoom_index 0

instance (s : TState) : Decidable (scaleInv s) := by
  unfold scaleInv; infer_instance

/-! ## Box drawing (`on_button_release`) -/

/-- The clamped image-space rectangle computed by `on_button_release`:
both drag endpoints are converted to image space, normalized per axis
(`x1 = max(0, min(ix1, ix2))`, `x2 = min(img_width, max(ix1, ix2))`, and
likewise for `y` with `img_height`). -/
def clampedRect (s : TState) (img_w img_h sx sy ex ey : ℚ) : ℚ × ℚ × ℚ × ℚ :=
  let p1 := canvas_to_image s sx sy
  let p2 := canvas_to_image s ex ey
  let x1 := max 0 (min p1.1 p2.1)
  let y1 := max 0 (min p1.2 p2.2)
  let x2 := min img_w (max p1.1 p2.1)
  let y2 := min img_h (max p1.2 p2.2)
  (x1, y1, x2, y2)

/-- `on_button_release`: finish drawing a box.  The drag from `(sx, sy)` to
`(ex, ey)` is converted to a clamped image-space rectangle; boxes narrower
or shorter than 3 image pixels are discarded (`none`), otherwise the box is
appended with the active class. -/
def on_button_release (s : TState) (img_w img_h sx sy ex ey : ℚ) (active_class : ℤ) :
    Option Box :=
  let r := clampedRect s img_w img_h sx sy ex ey
  if r.2.2.1 - r.1 < 3 ∨ r.2.2.2 - r.2.1 < 3 then none
  else some ⟨r.1, r.2.1, r.2.2.1, r.2.2.2, active_class⟩

/-! ## Label persistence (`save_boxes` / `_load_existing_labels`) -/

/-- The empty string (used as an out-of-range default for list indexing). -/
def emptyStr : String := ""


/-- Model of fixed 6-decimal formatting followed by `float(...)` on reload:
round to the nearest multiple of `10⁻⁶`. -/
def round6 (q : ℚ) : ℚ := (round (q * 1000000) : ℤ) / 1000000

/-- One line written by `save_boxes` in YOLO format, as its numeric
content `(class_id, x_center, y_center, w, h)`:
`x_center = ((x1+x2)/2)/img_w`, `y_center = ((y1+y2)/2)/img_h`,
`w = (x2-x1)/img_w`, `h = (y2-y1)/img_h`, each written with 6-decimal
precision (modelled by `round6`). -/
def yoloLine (img_w img_h : ℚ) (b : Box) : ℤ × ℚ × ℚ × ℚ × ℚ :=
  let x_center := ((b.x1 + b.x2) / 2) / img_w
  let y_center := ((b.y1 + b.y2) / 2) / img_h
  let w := (b.x2 - b.x1) / img_w
  let h := (b.y2 - b.y1) / img_h
  (b.cls, round6 x_center, round6 y_center, round6 w, round6 h)

/-- The per-line conversion of `_load_existing_labels`: scale the normalized
values by the current image dimensions and recover corners from
center/size. -/
def loadFromLine (img_w img_h : ℚ) (cls : ℤ) (xc yc w h : ℚ) : Box :=
  let x_center := xc * img_w
  let y_center := yc * img_h
  let wpx := w * img_w
  let hpx := h * img_h
  ⟨x_center - wpx / 2, y_center - hpx / 2, x_center + wpx / 2, y_center + hpx / 2, cls⟩

/-- Saving one box and reloading the written line against the same image
dimensions. -/
def saveReload (img_w img_h : ℚ) (b : Box) : Box :=
  let l := yoloLine img_w img_h b
  loadFromLine img_w img_h l.1 l.2.1 l.2.2.1 l.2.2.2.1 l.2.2.2.2

/-- Model of Python's `str.strip()`: drop whitespace from both ends. -/
def pyStrip (s : String) : String :=
  String.mk (((s.toList.dropWhile Char.isWhitespace).reverse.dropWhile
    Char.isWhitespace).reverse)

/-- Model of Python's `str.lower()` (ASCII case folding). -/
def pyLower (s : String) : String :=
  String.mk (s.toList.map Char.toLower)

/-- Splitting loop for `pySplit`: accumulate the current token (reversed)
and emit it at each whitespace run. -/
def splitWsAux : List Char → List Char → List String
  | [], cur => if cur.isEmpty then [] else [String.mk cur.reverse]
  | c :: cs, cur =>
    if c.isWhitespace then
      if cur.isEmpty then splitWsAux cs [] else String.mk cur.reverse :: splitWsAux cs []
    else splitWsAux cs (c :: cur)

/-- Model of Python's `line.strip().split()`: split on runs of whitespace,
ignoring leading and trailing whitespace. -/
def pySplit (line : String) : List String :=
  splitWsAux line.toList []

/-- `_load_existing_labels` over a label file given as its list of lines.
The numeric conversions `int(...)` / `float(...)` are passed as oracles
`pInt` / `pFloat` (`none` models a `ValueError`).  A line that does not
split into exactly 5 tokens is skipped (`continue`); a conversion failure
raises, which the surrounding `try` catches, ending the load with the boxes
appended so far. -/
def _load_existing_labels (pInt : String → Option ℤ) (pFloat : String → Option ℚ)
    (img_w img_h : ℚ) : List String → List Box
  | [] => []
  | line :: rest =>
    let parts := pySplit line
    if parts.length = 5 then
      match pInt (parts.getD 0 emptyStr), pFloat (parts.getD 1 emptyStr),
          pFloat (parts.getD 2 emptyStr), pFloat (parts.getD 3 emptyStr),
          pFloat (parts.getD 4 emptyStr) with
      | some cls, some xc, some yc, some w, some h =>
        loadFromLine img_w img_h cls xc yc w h ::
          _load_existing_labels pInt pFloat img_w img_h rest
      | _, _, _, _, _ => []
    else
      _load_existing_labels pInt pFloat img_w img_h rest

/-! ## Class registry (`class_names`, `_add_new_class`, `classes.txt`) -/

/-- The id assignment of `_add_new_class`:
`max(class_names.keys()) + 1 if class_names else 0`. -/
def nextClassId (reg : List (ℕ × String)) : ℕ :=
  match reg with
  | [] => 0
  | _ => (reg.map Prod.fst).foldl max 0 + 1

/-- `_add_new_class`: trim the entered name; do nothing if empty; if the
name matches an existing one case-insensitively, only set the active class
to that id; otherwise insert the name at `max(keys)+1` (kept at the end of
the key-sorted association list) and make it active.  Returns the new
registry and active class. -/
def _add_new_class (reg : List (ℕ × String)) (active_class : ℕ) (raw : String) :
    List (ℕ × String) × ℕ :=
  let name := pyStrip raw
  if name = "" then (reg, active_class)
  else
    match reg.find? (fun p => pyLower p.2 = pyLower name) with
    | some p => (reg, p.1)
    | none =>
      let next_id := nextClassId reg
      (reg ++ [(next_id, name)], next_id)

/-- `_save_classes_file`: write one name per line, iterating ids in sorted
order.  The registry is represented as its key-sorted association list, so
the written file (as a list of lines) is the list of names in key order. -/
def _save_classes_file (reg : List (ℕ × String)) : List String :=
  reg.map Prod.snd

/-- The `classes.txt` reader in `_init_folder`: for line `i`, the stripped
line, if non-empty, becomes the name of class id `i`. -/
def readClassesFile (lines : List String) : List (ℕ × String) :=
  lines.enum.filterMap (fun p =>
    let name := pyStrip p.2
    if name = "" then none else some (p.1, name))

/-! ## Resume index and `save_boxes` -/

/-- The scan loop of `_find_resume_index`: first index (from `i`) whose
image has no label file, where `labelExists img` models
`os.path.exists(os.path.join(labels_dir, stem + ".txt"))`. -/
def resumeScan (labelExists : String → Bool) : List String → ℕ → Option ℕ
  | [], _ => none
  | img :: rest, i =>
    if labelExists img then resumeScan labelExists rest (i + 1) else some i

/-- `_find_resume_index`: index of the first image without a label file;
if every image has one, `len(images) - 1` (so `-1` for an empty list). -/
def _find_resume_index (images : List String) (labelExists : String → Bool) : ℤ :=
  match resumeScan labelExists images 0 with
  | some i => (i : ℤ)
  | none => (images.length : ℤ) - 1

/-- `save_boxes`, modelled as the YOLO file write: returns `none` when
there are no images or no labels directory (the early `return`), and
otherwise the stem of the current image together with the lines written to
`<stem>.txt` — a full overwrite, one `yoloLine` per box, so an empty box
list yields an (existing) empty file.  `stemOf` models
`os.path.splitext(...)[0]`. -/
def save_boxes (images : List String) (labelsDirSet : Bool) (index : ℕ)
    (stemOf : String → String) (img_w img_h : ℚ) (boxes : List Box) :
    Option (String × List (ℤ × ℚ × ℚ × ℚ × ℚ)) :=
  if images = [] ∨ labelsDirSet = false then none
  else
    let stem := stemOf (images.getD index emptyStr)
    some (stem, boxes.map (yoloLine img_w img_h))

/-- The filesystem after writing `<stem>.txt`: that stem's label file now
exists, everything else is unchanged. -/
def fsAfterSave (fs : String → Bool) (stem : String) : String → Bool :=
  fun st => if st = stem then true else fs st

/-! ## Concrete numeric parsers (for evaluating the loader on inputs) -/

/-- Digits of a decimal numeral. -/
def digitsVal : List Char → Option ℕ
  | [] => none
  | cs => cs.foldl (fun acc c => match acc with
      | none => none
      | some n => if c.isDigit then some (n * 10 + (c.toNat - 48)) else none)
      (some 0)

/-- Simple model of Python `int(s)` on plain decimal numerals
(optional sign, digits); anything else is a `ValueError` (`none`). -/
def parseIntSimple (s : String) : Option ℤ :=
  match s.toList with
  | '-' :: cs => (digitsVal cs).map (fun n => -(n : ℤ))
  | cs => (digitsVal cs).map (fun n => (n : ℤ))

/-- Simple model of Python `float(s)` on plain decimal literals
(optional sign, digits, optional fractional part); anything else is a
`ValueError` (`none`). -/
def parseFloatSimple (s : String) : Option ℚ :=
  let core : List Char → Option ℚ := fun cs =>
    match cs.splitOn '.' with
    | [w] => (digitsVal w).map (fun n => (n : ℚ))
    | [w, f] =>
      match digitsVal w, digitsVal f with
      | some n, some m => some ((n : ℚ) + (m : ℚ) / (10 : ℚ) ^ f.length)
      | _, _ => none
    | _ => none
  match s.toList with
  | '-' :: cs => (core cs).map (fun q => -q)
  | cs => core cs

/-- The default class registry `DEFAULT_CLASS_NAMES = {0: "object"}`. -/
def DEFAULT_CLASS_NAMES : List (ℕ × String) := [(0, "object")]

/-- The placeholder synthesis in `_load_existing_labels`: a class id seen in
a label file but absent from the registry gets the name `class_<id>`
(appended; ids produced by the write paths are increasing, keeping the
association list key-sorted). -/
def ensureClassName (reg : List (ℕ × String)) (cls : ℕ) : List (ℕ × String) :=
  if (reg.find? (fun p => p.1 = cls)).isSome then reg
  else reg ++ [(cls, "class_" ++ toString cls)]

/-! ## Theorems -/

/-- Claim C2: every box committed by `on_button_release` on an image with
positive dimensions satisfies `0 ≤ x1 < x2 ≤ img_w` and
`0 ≤ y1 < y2 ≤ img_h`. -/
theorem C2_commit_draw_bounds (s : TState) (img_w img_h sx sy ex ey : ℚ) (cls : ℤ)
    (b : Box) (hw : 0 < img_w) (hh : 0 < img_h)
    (hb : on_button_release s img_w img_h sx sy ex ey cls = some b) :
    0 ≤ b.x1 ∧ b.x1 < b.x2 ∧ b.x2 ≤ img_w ∧ 0 ≤ b.y1 ∧ b.y1 < b.y2 ∧ b.y2 ≤ img_h := by
  rw [on_button_release] at hb
  by_cases hsmall :
      (clampedRect s img_w img_h sx sy ex ey).2.2.1 - (clampedRect s img_w img_h sx sy ex ey).1 < 3
      ∨ (clampedRect s img_w img_h sx sy ex ey).2.2.2 - (clampedRect s img_w img_h sx sy ex ey).2.1 < 3
  · simp [hsmall] at hb
  · rw [if_neg hsmall] at hb
    push_neg at hsmall
    obtain ⟨hx3, hy3⟩ := hsmall
    obtain rfl : b = ⟨(clampedRect s img_w img_h sx sy ex ey).1,
        (clampedRect s img_w img_h sx sy ex ey).2.1,
        (clampedRect s img_w img_h sx sy ex ey).2.2.1,
        (clampedRect s img_w img_h sx sy ex ey).2.2.2, cls⟩ := (Option.some_inj.mp hb).symm
    refine ⟨?_, ?_, ?_, ?_, ?_, ?_⟩
    · exact le_max_left 0 _
    · linarith
    · exact min_le_left _ _
    · exact le_max_left 0 _
    · linarith
    · exact min_le_left _ _

/-- Claim C2 witness: a drag from canvas `(10, 20)` to `(110, 220)` at the
identity transform on a 200×400 image commits a box within bounds. -/
theorem C2_commit_draw_bounds_witness :
    0 ≤ (10 : ℚ) ∧ (10 : ℚ) < 110 ∧ (110 : ℚ) ≤ 200 ∧
    0 ≤ (20 : ℚ) ∧ (20 : ℚ) < 220 ∧ (220 : ℚ) ≤ 400 :=
  C2_commit_draw_bounds ⟨1, 0, 0, 11⟩ 200 400 10 20 110 220 0 ⟨10, 20, 110, 220, 0⟩
    (by decide) (by decide)
    (by norm_num [on_button_release, clampedRect, canvas_to_image, min_def, max_def])

/-- Claim C9: a drag commit whose clamped image-space rectangle is narrower
than 3 pixels or shorter than 3 pixels creates no box. -/
theorem C9_minimum_size_rejection (s : TState) (img_w img_h sx sy ex ey : ℚ) (cls : ℤ)
    (hsmall :
      (clampedRect s img_w img_h sx sy ex ey).2.2.1 - (clampedRect s img_w img_h sx sy ex ey).1 < 3
      ∨ (clampedRect s img_w img_h sx sy ex ey).2.2.2 - (clampedRect s img_w img_h sx sy ex ey).2.1 < 3) :
    on_button_release s img_w img_h sx sy ex ey cls = none := by
  rw [on_button_release, if_pos hsmall]

/-- Claim C9 witness: a 1×1-pixel drag at the identity transform is
discarded. -/
theorem C9_minimum_size_rejection_witness :
    on_button_release ⟨1, 0, 0, 11⟩ 200 400 10 20 11 21 0 = none :=
  C9_minimum_size_rejection ⟨1, 0, 0, 11⟩ 200 400 10 20 11 21 0
    (by norm_num [clampedRect, canvas_to_image, min_def, max_def])

/-- Claim C4: a non-boundary `_zoom_step` with nonzero pre-step scale keeps
the image point under the cursor at exactly the same canvas point (exact
equality in ℚ, hence well within one canvas pixel). -/
theorem C4_cursor_anchored_zoom (s : TState) (cx cy : ℚ) (direction : ℤ)
    (hs : s.scale ≠ 0)
    (hne : zoomClampIndex s.zoom_index direction ≠ s.zoom_index) :
    image_to_canvas (_zoom_step s cx cy direction)
      (canvas_to_image s cx cy).1 (canvas_to_image s cx cy).2 = (cx, cy) := by
  rw [_zoom_step]
  simp only [if_neg hne]
  simp only [image_to_canvas, canvas_to_image, Prod.mk.injEq]
  constructor <;> ring

/-- Claim C4 witness: zooming in one step at cursor `(100, 50)` from the
state `scale = 1, offsets = 0, zoom_index = 11` leaves the cursor's image
point under the cursor. -/
theorem C4_cursor_anchored_zoom_witness :
    image_to_canvas (_zoom_step ⟨1, 0, 0, 11⟩ 100 50 1)
      (canvas_to_image ⟨1, 0, 0, 11⟩ 100 50).1
      (canvas_to_image ⟨1, 0, 0, 11⟩ 100 50).2 = (100, 50) :=
  C4_cursor_anchored_zoom ⟨1, 0, 0, 11⟩ 100 50 1 (by decide) (by decide)

/-- Claim C6 counterexample: immediately after construction the transform
state has `scale = 1.0` but `zoom_levels[zoom_index] = zoom_levels[0] =
0.05`, so the claimed always-invariant `scale == zoom_levels[zoom_index]`
fails at that point of the session lifetime. -/
theorem C6_scale_invariant_counterexample : ¬ scaleInv initState := by
  simp [scaleInv, initState, zoom_levels]
  norm_num

/-- Claim C6 (amended): `_fit_to_window` establishes
`scale == zoom_levels[zoom_index]`, and `_zoom_step` preserves it (also at
zoom boundaries, where the state is returned unchanged); the equality holds
from the first fit-to-window on, though not in the freshly constructed
state. -/
theorem C6_scale_invariant_amended (cw ch img_w img_h : ℚ) (s : TState) (cx cy : ℚ)
    (direction : ℤ) (hs : scaleInv s) :
    scaleInv (_fit_to_window cw ch img_w img_h) ∧
    scaleInv (_zoom_step s cx cy direction) := by
  constructor
  · rw [_fit_to_window, scaleInv]
  · rw [_zoom_step]
    by_cases hne : zoomClampIndex s.zoom_index direction = s.zoom_index
    · simpa [hne] using hs
    · simp only [if_neg hne]
      rw [scaleInv]

/-- Claim C6 amended witness: fitting a 2000×1000 image into a 1200×750
canvas and then zooming from the invariant-satisfying state
`scale = 1, zoom_index = 11` both satisfy the invariant. -/
theorem C6_scale_invariant_amended_witness :
    scaleInv (_fit_to_window 1200 750 2000 1000) ∧
    scaleInv (_zoom_step ⟨1, 0, 0, 11⟩ 100 50 1) :=
  C6_scale_invariant_amended 1200 750 2000 1000 ⟨1, 0, 0, 11⟩ 100 50 1 (by decide)


/-- `resumeScan` returns `none` when every image has a label file. -/
lemma resumeScan_eq_none (labelExists : String → Bool) :
    ∀ (l : List String) (k : ℕ), (∀ img ∈ l, labelExists img = true) →
      resumeScan labelExists l k = none := by
  intro l
  induction l with
  | nil => intro k _; rfl
  | cons a as ih =>
    intro k h
    rw [resumeScan, if_pos (h a (by simp))]
    exact ih (k + 1) (fun img hm => h img (by simp [hm]))

/-- `resumeScan` stops at the first unlabeled image, after a fully
labeled prefix. -/
lemma resumeScan_eq_prefix (labelExists : String → Bool) :
    ∀ (pre : List String) (img : String) (rest : List String) (k : ℕ),
      (∀ p ∈ pre, labelExists p = true) → labelExists img = false →
      resumeScan labelExists (pre ++ img :: rest) k = some (k + pre.length) := by
  intro pre
  induction pre with
  | nil =>
    intro img rest k _ himg
    simp [resumeScan, himg]
  | cons a as ih =>
    intro img rest k h himg
    rw [List.cons_append, resumeScan, if_pos (h a (by simp))]
    rw [ih img rest (k + 1) (fun p hp => h p (by simp [hp])) himg]
    simp
    omega

/-- A successful `resumeScan` points at an unlabeled image. -/
lemma resumeScan_eq_some (labelExists : String → Bool) :
    ∀ (l : List String) (k i : ℕ), resumeScan labelExists l k = some i →
      ∃ j, j < l.length ∧ i = k + j ∧ labelExists (l.getD j emptyStr) = false := by
  intro l
  induction l with
  | nil => intro k i h; simp [resumeScan] at h
  | cons a as ih =>
    intro k i h
    rw [resumeScan] at h
    by_cases ha : labelExists a = true
    · rw [if_pos ha] at h
      obtain ⟨j, hj, hij, hfalse⟩ := ih (k + 1) i h
      exact ⟨j + 1, by simpa using hj, by omega, by simpa using hfalse⟩
    · rw [if_neg ha] at h
      injection h with h'
      subst h'
      refine ⟨0, by simp, by omega, ?_⟩
      simpa using ha

/-- Claim C3: `_find_resume_index` returns the index of the first image
whose label file does not exist, and the last index (`len - 1`, not `len`)
when label files exist for every image. -/
theorem C3_resume_index (images : List String) (labelExists : String → Bool)
    (pre : List String) (img : String) (rest : List String) :
    (images = pre ++ img :: rest → (∀ p ∈ pre, labelExists p = true) →
      labelExists img = false →
      _find_resume_index images labelExists = (pre.length : ℤ)) ∧
    ((∀ i ∈ images, labelExists i = true) →
      _find_resume_index images labelExists = (images.length : ℤ) - 1) := by
  constructor
  · intro him hpre himg
    subst him
    rw [_find_resume_index, resumeScan_eq_prefix labelExists pre img rest 0 hpre himg]
    simp
  · intro h
    rw [_find_resume_index, resumeScan_eq_none labelExists images 0 h]

/-- Claim C3 witness: for images `[A, B, C]` with only `A.txt` present the
resume index is 1, and with all three label files present it is 2. -/
theorem C3_resume_index_witness :
    _find_resume_index ["A.jpg", "B.jpg", "C.jpg"] (fun img => img == "A.jpg") = 1 ∧
    _find_resume_index ["A.jpg", "B.jpg", "C.jpg"] (fun _ => true) = 2 := by
  constructor
  · exact (C3_resume_index ["A.jpg", "B.jpg", "C.jpg"] (fun img => img == "A.jpg")
      ["A.jpg"] "B.jpg" ["C.jpg"]).1 rfl (by decide) (by decide)
  · exact (C3_resume_index ["A.jpg", "B.jpg", "C.jpg"] (fun _ => true)
      [] "" []).2 (by decide)

/-- Claim C8: adding a class whose trimmed name matches an existing name
case-insensitively leaves the registry unchanged and sets the active class
to the existing id; a genuinely new name is inserted at `max(ids) + 1`. -/
theorem C8_duplicate_class_add (reg : List (ℕ × String)) (active_class : ℕ) (raw : String)
    (hne : ¬ pyStrip raw = "") :
    (∀ cid cname,
      reg.find? (fun p => pyLower p.2 = pyLower (pyStrip raw)) = some (cid, cname) →
      _add_new_class reg active_class raw = (reg, cid)) ∧
    (reg.find? (fun p => pyLower p.2 = pyLower (pyStrip raw)) = none →
      _add_new_class reg active_class raw =
        (reg ++ [(nextClassId reg, pyStrip raw)], nextClassId reg)) := by
  constructor
  · intro cid cname hfind
    simp only [_add_new_class, if_neg hne, hfind]
  · intro hfind
    simp only [_add_new_class, if_neg hne, hfind]

/-- Claim C8 witness: adding `"Car"` when `"car"` already exists at id 2
sets the active class to 2 and does not grow the registry. -/
theorem C8_duplicate_class_add_witness :
    _add_new_class [(0, "object"), (2, "car")] 0 "Car" = ([(0, "object"), (2, "car")], 2) :=
  (C8_duplicate_class_add [(0, "object"), (2, "car")] 0 "Car" (by decide)).1 2 "car"
    (by decide)

/-- Claim C10: with a non-empty image list and a labels directory,
`save_boxes` writes the current image's label file even when there are no
boxes (an empty file), and the resume scan then treats that image as
labeled. -/
theorem C10_save_creates_label_file (images : List String) (index : ℕ)
    (stemOf : String → String) (img_w img_h : ℚ) (boxes : List Box) (fs : String → Bool)
    (hne : images ≠ []) (hidx : index < images.length) :
    save_boxes images true index stemOf img_w img_h boxes =
      some (stemOf (images.getD index emptyStr), boxes.map (yoloLine img_w img_h)) ∧
    (boxes = [] → save_boxes images true index stemOf img_w img_h boxes =
      some (stemOf (images.getD index emptyStr), [])) ∧
    fsAfterSave fs (stemOf (images.getD index emptyStr))
      (stemOf (images.getD index emptyStr)) = true ∧
    resumeScan (fun img => fsAfterSave fs (stemOf (images.getD index emptyStr)) (stemOf img))
      images 0 ≠ some index := by
  refine ⟨?_, ?_, ?_, ?_⟩
  · rw [save_boxes, if_neg (by simp [hne])]
  · intro hb
    subst hb
    rw [save_boxes, if_neg (by simp [hne])]
    simp
  · simp [fsAfterSave]
  · intro hscan
    obtain ⟨j, hj, hij, hfalse⟩ :=
      resumeScan_eq_some _ images 0 index hscan
    have hj0 : j = index := by omega
    subst hj0
    simp [fsAfterSave] at hfalse


/-- Claim C5 counterexample: the registry `{0: "object", 5: "class_5"}` is
reachable from the default registry by one placeholder synthesis, but
writing it to `classes.txt` and re-reading yields `{0: "object",
1: "class_5"}` — the gap is lost, so the claimed round trip fails. -/
theorem C5_classes_round_trip_counterexample :
    ensureClassName DEFAULT_CLASS_NAMES 5 = [(0, "object"), (5, "class_5")] ∧
    readClassesFile (_save_classes_file [(0, "object"), (5, "class_5")]) =
      [(0, "object"), (1, "class_5")] ∧
    readClassesFile (_save_classes_file [(0, "object"), (5, "class_5")]) ≠
      [(0, "object"), (5, "class_5")] := by
  decide

/-- The `classes.txt` reader reproduces an enumerated, trimmed, non-empty
name list (generalized over the starting index). -/
lemma readClasses_enumFrom (names : List String)
    (h : ∀ n ∈ names, pyStrip n = n ∧ ¬ n = "") (k : ℕ) :
    (names.enumFrom k).filterMap (fun p =>
      let name := pyStrip p.2
      if name = "" then none else some (p.1, name)) = names.enumFrom k := by
  induction names generalizing k with
  | nil => rfl
  | cons n ns ih =>
    obtain ⟨hstrip, hne⟩ := h n (by simp)
    simp only [List.enumFrom_cons, List.filterMap_cons, hstrip, if_neg hne]
    rw [ih (fun m hm => h m (by simp [hm])) (k + 1)]

/-- Claim C5 (amended): for a registry whose ids are exactly `0..n-1`
(which is every state reachable by `add` alone, whose names are trimmed and
non-empty), writing `classes.txt` puts the name of class `i` on line `i`,
and re-reading recovers exactly the same id-to-name mapping.  Registries
with id gaps — reachable via placeholder synthesis — are renumbered by the
round trip (see the counterexample). -/
theorem C5_classes_round_trip_amended (names : List String)
    (h : ∀ n ∈ names, pyStrip n = n ∧ ¬ n = "") :
    _save_classes_file names.enum = names ∧
    readClassesFile (_save_classes_file names.enum) = names.enum := by
  have hsave : _save_classes_file names.enum = names := by
    simp [_save_classes_file]
  refine ⟨hsave, ?_⟩
  rw [hsave, readClassesFile]
  exact readClasses_enumFrom names h 0

/-- Claim C5 amended witness: the two-class registry
`{0: "object", 1: "car"}` written and re-read is unchanged. -/
theorem C5_classes_round_trip_amended_witness :
    _save_classes_file (List.enum ["object", "car"]) = ["object", "car"] ∧
    readClassesFile (_save_classes_file (List.enum ["object", "car"])) =
      List.enum ["object", "car"] :=
  C5_classes_round_trip_amended ["object", "car"] (by decide)

/-- Claim C7 counterexample: in the file
`["a b c d e", "0 0.5 0.5 0.2 0.2"]` both lines split into exactly 5
tokens, and the second line loads fine on its own, yet the whole file loads
zero boxes: the `ValueError` from `int("a")` on the first line aborts the
rest of the file, contradicting the claim that every well-formed line is
still loaded. -/
theorem C7_malformed_line_counterexample :
    (pySplit "a b c d e").length = 5 ∧
    (pySplit "0 0.5 0.5 0.2 0.2").length = 5 ∧
    (_load_existing_labels parseIntSimple parseFloatSimple 100 100
      ["0 0.5 0.5 0.2 0.2"]).length = 1 ∧
    _load_existing_labels parseIntSimple parseFloatSimple 100 100
      ["a b c d e", "0 0.5 0.5 0.2 0.2"] = [] := by
  decide

/-- Claim C7 (amended): a line that does not split into exactly 5 tokens is
skipped and the rest of the file is still processed; a 5-token line whose
tokens all convert loads its box and processing continues; but a 5-token
line with a failing numeric conversion ends the load, keeping only the
boxes accumulated so far. -/
theorem C7_malformed_line_tolerance_amended (pInt : String → Option ℤ)
    (pFloat : String → Option ℚ) (img_w img_h : ℚ) (line : String) (rest : List String) :
    (¬ (pySplit line).length = 5 →
      _load_existing_labels pInt pFloat img_w img_h (line :: rest) =
        _load_existing_labels pInt pFloat img_w img_h rest) ∧
    (∀ cls xc yc w h, (pySplit line).length = 5 →
      pInt ((pySplit line).getD 0 emptyStr) = some cls →
      pFloat ((pySplit line).getD 1 emptyStr) = some xc →
      pFloat ((pySplit line).getD 2 emptyStr) = some yc →
      pFloat ((pySplit line).getD 3 emptyStr) = some w →
      pFloat ((pySplit line).getD 4 emptyStr) = some h →
      _load_existing_labels pInt pFloat img_w img_h (line :: rest) =
        loadFromLine img_w img_h cls xc yc w h ::
          _load_existing_labels pInt pFloat img_w img_h rest) ∧
    ((pySplit line).length = 5 →
      (pInt ((pySplit line).getD 0 emptyStr) = none ∨
        pFloat ((pySplit line).getD 1 emptyStr) = none ∨
        pFloat ((pySplit line).getD 2 emptyStr) = none ∨
        pFloat ((pySplit line).getD 3 emptyStr) = none ∨
        pFloat ((pySplit line).getD 4 emptyStr) = none) →
      _load_existing_labels pInt pFloat img_w img_h (line :: rest) = []) := by
  refine ⟨?_, ?_, ?_⟩
  · intro hlen
    simp only [_load_existing_labels, if_neg hlen]
  · intro cls xc yc w h hlen h0 h1 h2 h3 h4
    simp only [_load_existing_labels, if_pos hlen, h0, h1, h2, h3, h4]
  · intro hlen hbad
    simp only [_load_existing_labels, if_pos hlen]
    cases h0 : pInt ((pySplit line).getD 0 emptyStr) <;>
      cases h1 : pFloat ((pySplit line).getD 1 emptyStr) <;>
      cases h2 : pFloat ((pySplit line).getD 2 emptyStr) <;>
      cases h3 : pFloat ((pySplit line).getD 3 emptyStr) <;>
      cases h4 : pFloat ((pySplit line).getD 4 emptyStr) <;>
      simp_all

/-- Claim C7 amended witness: a 1-token line is skipped with the rest still
loaded; a fully well-formed line loads its box; a 5-token line with a
non-numeric token ends the load. -/
theorem C7_malformed_line_tolerance_amended_witness :
    (_load_existing_labels parseIntSimple parseFloatSimple 1 1 ["x", "0 1 1 1 1"] =
      _load_existing_labels parseIntSimple parseFloatSimple 1 1 ["0 1 1 1 1"]) ∧
    (_load_existing_labels parseIntSimple parseFloatSimple 1 1 ["0 1 1 1 1"] =
      loadFromLine 1 1 0 1 1 1 1 ::
        _load_existing_labels parseIntSimple parseFloatSimple 1 1 []) ∧
    _load_existing_labels parseIntSimple parseFloatSimple 1 1 ["a b c d e"] = [] :=
  ⟨(C7_malformed_line_tolerance_amended parseIntSimple parseFloatSimple 1 1 "x"
      ["0 1 1 1 1"]).1 (by decide),
   (C7_malformed_line_tolerance_amended parseIntSimple parseFloatSimple 1 1 "0 1 1 1 1"
      []).2.1 0 1 1 1 1 (by decide) (by decide) (by decide) (by decide) (by decide)
      (by decide),
   (C7_malformed_line_tolerance_amended parseIntSimple parseFloatSimple 1 1 "a b c d e"
      []).2.2 (by decide) (Or.inl (by decide))⟩


/-- 6-decimal formatting changes a value by at most half an ulp of the
stored precision. -/
lemma round6_sub_le (q : ℚ) : |round6 q - q| ≤ 1 / 2000000 := by
  rw [round6]
  have h := abs_sub_round (q * 1000000)
  have he : (round (q * 1000000) : ℚ) / 1000000 - q =
      ((round (q * 1000000) : ℚ) - q * 1000000) / 1000000 := by ring
  rw [he, abs_div, abs_of_pos (by norm_num : (0 : ℚ) < 1000000)]
  calc |(round (q * 1000000) : ℚ) - q * 1000000| / 1000000
      ≤ (1 / 2) / 1000000 := by
        rw [abs_sub_comm]
        exact (div_le_div_iff_of_pos_right (by norm_num)).mpr h
    _ = 1 / 2000000 := by norm_num

/-- Reconstructing `center ∓ size/2` from two values each within half an
ulp gives a result within one whole unit of the stored precision, scaled by
the dimension. -/
lemma reloadErrBound (W c w r1 r2 : ℚ) (hW : 0 < W) (sgn : ℚ)
    (hsgn : sgn = 1 ∨ sgn = -1)
    (h1 : |r1 - c| ≤ 1 / 2000000) (h2 : |r2 - w| ≤ 1 / 2000000) :
    |(r1 * W + sgn * (r2 * W / 2)) - (c * W + sgn * (w * W / 2))| ≤ W / 1000000 := by
  have he : (r1 * W + sgn * (r2 * W / 2)) - (c * W + sgn * (w * W / 2)) =
      (r1 - c) * W + (r2 - w) * (sgn * W / 2) := by ring
  rw [he]
  have ha : |(r1 - c) * W| ≤ W / 2000000 := by
    rw [abs_mul, abs_of_pos hW]
    calc |r1 - c| * W ≤ (1 / 2000000) * W := mul_le_mul_of_nonneg_right h1 hW.le
      _ = W / 2000000 := by ring
  have hb : |(r2 - w) * (sgn * W / 2)| ≤ W / 4000000 := by
    rw [abs_mul]
    have habs : |sgn * W / 2| = W / 2 := by
      rcases hsgn with rfl | rfl
      · rw [abs_of_pos (by linarith)]; ring
      · rw [abs_of_neg (by linarith)]; ring
    rw [habs]
    calc |r2 - w| * (W / 2) ≤ (1 / 2000000) * (W / 2) :=
          mul_le_mul_of_nonneg_right h2 (by linarith)
      _ = W / 4000000 := by ring
  calc |(r1 - c) * W + (r2 - w) * (sgn * W / 2)|
      ≤ |(r1 - c) * W| + |(r2 - w) * (sgn * W / 2)| := abs_add _ _
    _ ≤ W / 2000000 + W / 4000000 := add_le_add ha hb
    _ ≤ W / 1000000 := by linarith

/-- Claim C1: saving a box via `save_boxes` writes the class id and the
four normalized values at 6-decimal precision, and reloading the written
line via `_load_existing_labels` against the same image dimensions
reproduces each pixel coordinate within `1e-6` of the corresponding image
dimension; for the box `(10, 20, 110, 220)` on a 200×400 image the written
values are exactly `cx = 0.300000, cy = 0.300000, w = 0.500000,
h = 0.500000` and the reload is exact. -/
theorem C1_normalized_round_trip (img_w img_h : ℚ) (b : Box)
    (hw : 0 < img_w) (hh : 0 < img_h) :
    ((saveReload img_w img_h b).cls = b.cls ∧
      |(saveReload img_w img_h b).x1 - b.x1| ≤ img_w / 1000000 ∧
      |(saveReload img_w img_h b).y1 - b.y1| ≤ img_h / 1000000 ∧
      |(saveReload img_w img_h b).x2 - b.x2| ≤ img_w / 1000000 ∧
      |(saveReload img_w img_h b).y2 - b.y2| ≤ img_h / 1000000) ∧
    yoloLine 200 400 ⟨10, 20, 110, 220, 0⟩ = (0, 3/10, 3/10, 1/2, 1/2) ∧
    saveReload 200 400 ⟨10, 20, 110, 220, 0⟩ = ⟨10, 20, 110, 220, 0⟩ := by
  have hcw : ∀ (W v1 v2 : ℚ), 0 < W → ((v1 + v2) / 2) / W * W = (v1 + v2) / 2 :=
    fun W v1 v2 hW => div_mul_cancel₀ _ hW.ne'
  have hww : ∀ (W v1 v2 : ℚ), 0 < W → ((v2 - v1) / W) * W = v2 - v1 :=
    fun W v1 v2 hW => div_mul_cancel₀ _ hW.ne'
  refine ⟨⟨rfl, ?_, ?_, ?_, ?_⟩, ?_, ?_⟩
  · have h := reloadErrBound img_w (((b.x1 + b.x2) / 2) / img_w) ((b.x2 - b.x1) / img_w)
      (round6 (((b.x1 + b.x2) / 2) / img_w)) (round6 ((b.x2 - b.x1) / img_w)) hw (-1)
      (Or.inr rfl) (round6_sub_le _) (round6_sub_le _)
    have hme : ((b.x1 + b.x2) / 2) / img_w * img_w +
        (-1) * (((b.x2 - b.x1) / img_w) * img_w / 2) = b.x1 := by
      rw [hcw img_w b.x1 b.x2 hw, hww img_w b.x1 b.x2 hw]; ring
    rw [hme] at h
    have hsr : (saveReload img_w img_h b).x1 =
        round6 (((b.x1 + b.x2) / 2) / img_w) * img_w +
          (-1) * (round6 ((b.x2 - b.x1) / img_w) * img_w / 2) := by
      show round6 (((b.x1 + b.x2) / 2) / img_w) * img_w -
          round6 ((b.x2 - b.x1) / img_w) * img_w / 2 = _
      ring
    rw [hsr]
    exact h
  · have h := reloadErrBound img_h (((b.y1 + b.y2) / 2) / img_h) ((b.y2 - b.y1) / img_h)
      (round6 (((b.y1 + b.y2) / 2) / img_h)) (round6 ((b.y2 - b.y1) / img_h)) hh (-1)
      (Or.inr rfl) (round6_sub_le _) (round6_sub_le _)
    have hme : ((b.y1 + b.y2) / 2) / img_h * img_h +
        (-1) * (((b.y2 - b.y1) / img_h) * img_h / 2) = b.y1 := by
      rw [hcw img_h b.y1 b.y2 hh, hww img_h b.y1 b.y2 hh]; ring
    rw [hme] at h
    have hsr : (saveReload img_w img_h b).y1 =
        round6 (((b.y1 + b.y2) / 2) / img_h) * img_h +
          (-1) * (round6 ((b.y2 - b.y1) / img_h) * img_h / 2) := by
      show round6 (((b.y1 + b.y2) / 2) / img_h) * img_h -
          round6 ((b.y2 - b.y1) / img_h) * img_h / 2 = _
      ring
    rw [hsr]
    exact h
  · have h := reloadErrBound img_w (((b.x1 + b.x2) / 2) / img_w) ((b.x2 - b.x1) / img_w)
      (round6 (((b.x1 + b.x2) / 2) / img_w)) (round6 ((b.x2 - b.x1) / img_w)) hw 1
      (Or.inl rfl) (round6_sub_le _) (round6_sub_le _)
    have hme : ((b.x1 + b.x2) / 2) / img_w * img_w +
        1 * (((b.x2 - b.x1) / img_w) * img_w / 2) = b.x2 := by
      rw [hcw img_w b.x1 b.x2 hw, hww img_w b.x1 b.x2 hw]; ring
    rw [hme] at h
    have hsr : (saveReload img_w img_h b).x2 =
        round6 (((b.x1 + b.x2) / 2) / img_w) * img_w +
          1 * (round6 ((b.x2 - b.x1) / img_w) * img_w / 2) := by
      show round6 (((b.x1 + b.x2) / 2) / img_w) * img_w +
          round6 ((b.x2 - b.x1) / img_w) * img_w / 2 = _
      ring
    rw [hsr]
    exact h
  · have h := reloadErrBound img_h (((b.y1 + b.y2) / 2) / img_h) ((b.y2 - b.y1) / img_h)
      (round6 (((b.y1 + b.y2) / 2) / img_h)) (round6 ((b.y2 - b.y1) / img_h)) hh 1
      (Or.inl rfl) (round6_sub_le _) (round6_sub_le _)
    have hme : ((b.y1 + b.y2) / 2) / img_h * img_h +
        1 * (((b.y2 - b.y1) / img_h) * img_h / 2) = b.y2 := by
      rw [hcw img_h b.y1 b.y2 hh, hww img_h b.y1 b.y2 hh]; ring
    rw [hme] at h
    have hsr : (saveReload img_w img_h b).y2 =
        round6 (((b.y1 + b.y2) / 2) / img_h) * img_h +
          1 * (round6 ((b.y2 - b.y1) / img_h) * img_h / 2) := by
      show round6 (((b.y1 + b.y2) / 2) / img_h) * img_h +
          round6 ((b.y2 - b.y1) / img_h) * img_h / 2 = _
      ring
    rw [hsr]
    exact h
  · simp only [yoloLine, round6, round_eq]
    norm_num
  · simp only [saveReload, yoloLine, loadFromLine, round6, round_eq]
    norm_num [Box.mk.injEq]

/-- Claim C1 witness: the round trip bound and the concrete example for the
box `(10, 20, 110, 220)` on a 200×400 image. -/
theorem C1_normalized_round_trip_witness :
    ((saveReload 200 400 ⟨10, 20, 110, 220, 0⟩).cls = (Box.mk 10 20 110 220 0).cls ∧
      |(saveReload 200 400 ⟨10, 20, 110, 220, 0⟩).x1 - (Box.mk 10 20 110 220 0).x1| ≤
        200 / 1000000 ∧
      |(saveReload 200 400 ⟨10, 20, 110, 220, 0⟩).y1 - (Box.mk 10 20 110 220 0).y1| ≤
        400 / 1000000 ∧
      |(saveReload 200 400 ⟨10, 20, 110, 220, 0⟩).x2 - (Box.mk 10 20 110 220 0).x2| ≤
        200 / 1000000 ∧
      |(saveReload 200 400 ⟨10, 20, 110, 220, 0⟩).y2 - (Box.mk 10 20 110 220 0).y2| ≤
        400 / 1000000) ∧
    yoloLine 200 400 ⟨10, 20, 110, 220, 0⟩ = (0, 3/10, 3/10, 1/2, 1/2) ∧
    saveReload 200 400 ⟨10, 20, 110, 220, 0⟩ = ⟨10, 20, 110, 220, 0⟩ :=
  C1_normalized_round_trip 200 400 ⟨10, 20, 110, 220, 0⟩ (by decide) (by decide)


/-- Claim C10 witness: saving the single image `A.jpg` with no boxes still
writes (an empty) `A.jpg.txt`, and the resume scan no longer stops at it. -/
theorem C10_save_creates_label_file_witness :
    save_boxes ["A.jpg"] true 0 (fun st => st) 1 1 [] =
      some ((fun st => st) (["A.jpg"].getD 0 emptyStr), List.map (yoloLine 1 1) []) ∧
    (([] : List Box) = [] → save_boxes ["A.jpg"] true 0 (fun st => st) 1 1 [] =
      some ((fun st => st) (["A.jpg"].getD 0 emptyStr), [])) ∧
    fsAfterSave (fun _ => false) ((fun st => st) (["A.jpg"].getD 0 emptyStr))
      ((fun st => st) (["A.jpg"].getD 0 emptyStr)) = true ∧
    resumeScan (fun img => fsAfterSave (fun _ => false)
        ((fun st => st) (["A.jpg"].getD 0 emptyStr)) ((fun st => st) img)) ["A.jpg"] 0 ≠
      some 0 :=
  C10_save_creates_label_file ["A.jpg"] 0 (fun st => st) 1 1 [] (fun _ => false)
    (by decide) (by decide)

end BoxLabeler
